import Mathlib

/-!
Shallow embedding of `babel-plugin-import-to-await-require`
(`src/packages/babel-plugin-import-to-await-require/src/index.ts`).

The plugin rewrites top-level module-linkage statements (imports,
re-exports, dynamic `import()` calls) into `await import()` bindings for
module references that match a configurable policy.  We embed the policy
(`IOpts`), the relevant fragment of the Babel AST (`Stmt`, `Specifier`),
and the pure content of the visitor's `Program.exit` / `CallExpression.exit`
handlers, with the optional `onTransformDeps` callback modelled as an
explicit log of the records the code would pass to it, and the
`throw new Error('Unsupported lib format.')` modelled with `Except`.
-/

set_option autoImplicit false

namespace Umi

/-- A `libs` entry: the TypeScript type is `(RegExp | string)[]`, and at
runtime any other kind of value can be present; `isMatchLib` distinguishes
`typeof lib === 'string'`, `lib instanceof RegExp`, and everything else.
A `RegExp` is embedded by its `test` predicate on strings. -/
inductive TLib where
  | str (s : String)
  | regexp (test : String → Bool)
  | invalid

/-- An alias' map (`IAlias`): a JS object used only through `Object.keys`
iteration (insertion order), embedded as an ordered association list. -/
abbrev IAlias := List (String × String)

/-- The plugin options (`IOpts`).  Optional fields are `Option`s, mirroring
`libs?`, `matchAll?`, `alias'?`, `webpackAlias?`, `exportAllMembers?`.
`onTransformDeps` is not a field: the records the code would pass to it are
returned explicitly by the embedded visitors. -/
structure IOpts where
  libs : Option (List TLib)
  matchAll : Option Bool
  remoteName : String
  alias' : Option IAlias
  webpackAlias : Option IAlias
  exportAllMembers : Option (List (String × List String))

/-- An import/export specifier, the closed set of Babel node kinds
`specifiersToProperties` distinguishes (its final `else` branch is the
plain named-import specifier). -/
inductive Specifier where
  | importDefaultSpecifier (localName : String)
  | exportDefaultSpecifier (exportedName : String)
  | exportSpecifier (localName exportedName : String)
  | importNamespaceSpecifier (localName : String)
  | importSpecifier (importedName localName : String)
deriving DecidableEq

/-- The accumulator of `specifiersToProperties`:
`{ properties: [], namespaceIdentifier: null }`, with an object property
`t.objectProperty(k, v)` embedded as the pair of identifier names `(k, v)`. -/
structure ProjectedSpecifiers where
  properties : List (String × String)
  namespaceIdentifier : Option String
deriving DecidableEq

/-- `specifiersToProperties`: reduce over the specifier list, pushing a
`(key, value)` property per specifier (default-import ⇒ `("default", local)`,
export-default ⇒ `("default", exported)`, export ⇒ `(local, exported)`,
named import ⇒ `(imported, local)`); a namespace specifier instead sets
`namespaceIdentifier` to its local name. -/
def specifiersToProperties (specifiers : List Specifier) : ProjectedSpecifiers :=
  specifiers.foldl
    (fun memo s =>
      match s with
      | .importDefaultSpecifier localName =>
          ⟨memo.properties ++ [("default", localName)], memo.namespaceIdentifier⟩
      | .exportDefaultSpecifier exportedName =>
          ⟨memo.properties ++ [("default", exportedName)], memo.namespaceIdentifier⟩
      | .exportSpecifier localName exportedName =>
          ⟨memo.properties ++ [(localName, exportedName)], memo.namespaceIdentifier⟩
      | .importNamespaceSpecifier localName =>
          ⟨memo.properties, some localName⟩
      | .importSpecifier importedName localName =>
          ⟨memo.properties ++ [(importedName, localName)], memo.namespaceIdentifier⟩)
    ⟨[], none⟩

/-- `candidate` is a prefix of `cs` (character lists); structural
counterpart of JS `String.prototype.startsWith`. -/
def charsStart : List Char → List Char → Bool
  | _, [] => true
  | [], _ :: _ => false
  | c :: cs, p :: ps => p == c && charsStart cs ps

/-- JS `s.startsWith(candidate)`. -/
def strStartsWith (s candidate : String) : Bool :=
  charsStart s.toList candidate.toList

/-- JS `s.endsWith(candidate)`. -/
def strEndsWith (s candidate : String) : Bool :=
  charsStart s.toList.reverse candidate.toList.reverse

/-- Drop the first `n` characters of a string. -/
def strDrop (s : String) (n : Nat) : String :=
  String.mk (s.toList.drop n)

/-- `pat` occurs somewhere in `cs`. -/
def charsContain (cs pat : List Char) : Bool :=
  match cs with
  | [] => pat.isEmpty
  | _ :: rest => charsStart cs pat || charsContain rest pat

/-- Substring containment, the behaviour of `RegExp.test` for the two
literal regexes `RE_NODE_MODULES = /node_modules/` and
`RE_UMI_LOCAL_DEV = /umi\/packages\//` (both are plain substring patterns). -/
def strContains (s pat : String) : Bool :=
  charsContain s.toList pat.toList

/-- `RE_NODE_MODULES.test path` for `RE_NODE_MODULES = /node_modules/`. -/
def reNodeModulesTest (path : String) : Bool :=
  strContains path "node_modules"

/-- `RE_UMI_LOCAL_DEV.test path` for `RE_UMI_LOCAL_DEV = /umi\/packages\//`. -/
def reUmiLocalDevTest (path : String) : Bool :=
  strContains path "umi/packages/"

/-- Node's `path.isAbsolute` (posix): the path starts with a separator. -/
def isAbsolute (path : String) : Bool :=
  strStartsWith path "/"

/-- Node's `path.extname`: the extension of the basename (the characters
after the last separator), from its last dot to the end, where a dot that
begins the basename does not count. -/
def extname (p : String) : String :=
  let base := (p.toList.reverse.takeWhile (fun c => c != '/')).reverse
  match base with
  | [] => ""
  | _ :: rest =>
    let revRest := rest.reverse
    match revRest.findIdx? (fun c => c == '.') with
    | none => ""
    | some i => String.mk ('.' :: (revRest.take i).reverse)

/-- `isJSFile`: the extension is one of `.js`, `.jsx`, `.ts`, `.tsx`. -/
def isJSFile (path : String) : Bool :=
  [".js", ".jsx", ".ts", ".tsx"].contains (extname path)

/-- `addLastSlash`: append a `/` unless the path already ends with one. -/
def addLastSlash (path : String) : String :=
  if strEndsWith path "/" then path else path ++ "/"

/-- `getAlias`: walk `webpackAlias` entries in order; an entry whose value
is a JS file is matched by `startsWith` against the bare key, any other
entry by `startsWith` against the key with a trailing slash appended;
return the first matching entry's value, else `null`. -/
def getAlias (path : String) (webpackAlias : IAlias) : Option String :=
  match webpackAlias with
  | [] => none
  | (key, value) :: rest =>
    let p := if isJSFile value then key else addLastSlash key
    if strStartsWith path p then some value else getAlias path rest

/-- One step of the `.some` callback in `isMatchLib`'s explicit-list mode:
`lib === path` for strings, `lib.test(path)` for regexes, and
`throw new Error('Unsupported lib format.')` otherwise, with `.some`'s
short-circuiting. -/
def someLib (path : String) : List TLib → Except String Bool
  | [] => .ok false
  | .str s :: rest => if s = path then .ok true else someLib path rest
  | .regexp test :: rest => if test path then .ok true else someLib path rest
  | .invalid :: _ => .error "Unsupported lib format."

/-- `isMatchLib`.  In wildcard mode (`matchAll` truthy): never match `umi`
or `dumi`; an absolute path matches iff one of the two marker regexes
matches; a path starting with `.` never matches; otherwise resolve through
`webpackAlias` and apply the marker test to the resolved value, defaulting
to match when unresolved.  Otherwise scan `(libs || [])` concatenated with
`Object.keys(alias')` via `.some`. -/
def isMatchLib (path : String) (libs : Option (List TLib)) (matchAll : Option Bool)
    (alias' : IAlias) (webpackAlias : IAlias) : Except String Bool :=
  if matchAll.getD false then
    if path = "umi" ∨ path = "dumi" then .ok false
    else if isAbsolute path then
      .ok (reNodeModulesTest path || reUmiLocalDevTest path)
    else if strStartsWith path "." then .ok false
    else
      match getAlias path webpackAlias with
      | some aliasPath => .ok (reNodeModulesTest aliasPath || reUmiLocalDevTest aliasPath)
      | none => .ok true
  else
    someLib path (libs.getD [] ++ (alias'.map Prod.fst).map TLib.str)

/-- `getPath`: substitute the first `alias'` key that is a prefix of `path`
by its value (`path.replace(key, alias'[key])` after a `startsWith` check
replaces that leading occurrence); identity when no key matches. -/
def getPath (path : String) (alias' : IAlias) : String :=
  match alias' with
  | [] => path
  | (key, value) :: rest =>
    if strStartsWith path key then value ++ strDrop path key.length
    else getPath path rest

/-- The initializer of a generated `const` declarator: either
`await import("<path>")` or a plain identifier reference. -/
inductive Initializer where
  | awaitImport (path : String)
  | ident (name : String)
deriving DecidableEq

/-- A binding pattern: `t.identifier(name)` or `t.objectPattern(props)`
with each property a `(key, value)` pair of identifier names. -/
inductive Pattern where
  | identifier (name : String)
  | objectPattern (properties : List (String × String))
deriving DecidableEq

/-- A top-level statement, covering the node kinds `Program.exit`
inspects or produces: import declarations, `export * from`,
`export { .. } from` (source `none` after the source clause is cleared),
generated `const` declarations, the `export const { .. } = __all_exports`
replacement, and everything else. -/
inductive Stmt where
  | importDecl (source : String) (specifiers : List Specifier)
  | exportAllDecl (source : Option String)
  | exportNamedDecl (source : Option String) (specifiers : List Specifier)
  | variableDeclaration (id : Pattern) (init : Initializer)
  | exportNamedVariableDeclaration (id : Pattern) (init : Initializer)
  | other (tag : Nat)
deriving DecidableEq

/-- The record the plugin passes to `opts.onTransformDeps`: the reference
string, the containing file (`path.hub.file.opts.filename`), the reported
`isMatch` field, and the `isExportAllDeclaration` flag (absent ≡ false). -/
structure TransformDep where
  source : String
  file : String
  isMatch : Bool
  isExportAllDeclaration : Bool
deriving DecidableEq

/-- The remote specifier `${opts.remoteName}/${getPath(source, opts.alias' || {})}`. -/
def remotePath (opts : IOpts) (source : String) : String :=
  opts.remoteName ++ "/" ++ getPath source (opts.alias'.getD [])

/-- `isMatchLib` as each visitor branch calls it:
`isMatchLib(value, opts.libs, opts.matchAll, opts.alias' || {}, opts.webpackAlias || {})`. -/
def optsMatch (opts : IOpts) (value : String) : Except String Bool :=
  isMatchLib value opts.libs opts.matchAll (opts.alias'.getD []) (opts.webpackAlias.getD [])

/-- The body of the `Program.exit` while-loop for one statement `d`,
returning `(generated declarations, retained statements, callback records)`.
A matched import is spliced out (retained is empty) after unshifting its
declaration(s) — namespace declaration before the destructuring step; a
matched `export * from` with a configured member list is replaced in place
by `export const { m1, .. } = __all_exports`; a matched `export { .. } from`
has its source cleared; every other statement is retained unchanged.  The
callback record for an `ExportAllDeclaration` carries `isMatch: false` and
`isExportAllDeclaration: true` verbatim from the source. -/
def processStmt (opts : IOpts) (file : String) : Stmt → Except String (List Stmt × List Stmt × List TransformDep)
  | .importDecl source specifiers =>
    match optsMatch opts source with
    | .error e => .error e
    | .ok isMatch =>
      let cb : TransformDep := ⟨source, file, isMatch, false⟩
      if isMatch then
        let projected := specifiersToProperties specifiers
        let id := Pattern.objectPattern projected.properties
        let init := Initializer.awaitImport (remotePath opts source)
        match projected.namespaceIdentifier with
        | some namespaceIdentifier =>
          if projected.properties.length != 0 then
            .ok ([.variableDeclaration (.identifier namespaceIdentifier) init,
                  .variableDeclaration id (.ident namespaceIdentifier)], [], [cb])
          else
            .ok ([.variableDeclaration (.identifier namespaceIdentifier) init], [], [cb])
        | none =>
          .ok ([.variableDeclaration id init], [], [cb])
      else
        .ok ([], [.importDecl source specifiers], [cb])
  | .exportAllDecl (some source) =>
    match optsMatch opts source with
    | .error e => .error e
    | .ok isMatch =>
      let cb : TransformDep := ⟨source, file, false, true⟩
      if isMatch then
        match (opts.exportAllMembers.getD []).lookup source with
        | some members =>
          let init := Initializer.awaitImport (remotePath opts source)
          .ok ([.variableDeclaration (.identifier "__all_exports") init],
               [.exportNamedVariableDeclaration
                  (.objectPattern (members.map fun m => (m, m)))
                  (.ident "__all_exports")], [cb])
        | none => .ok ([], [.exportAllDecl (some source)], [cb])
      else
        .ok ([], [.exportAllDecl (some source)], [cb])
  | .exportNamedDecl (some source) specifiers =>
    match optsMatch opts source with
    | .error e => .error e
    | .ok isMatch =>
      let cb : TransformDep := ⟨source, file, isMatch, false⟩
      if isMatch then
        let projected := specifiersToProperties specifiers
        let id := Pattern.objectPattern projected.properties
        let init := Initializer.awaitImport (remotePath opts source)
        .ok ([.variableDeclaration id init], [.exportNamedDecl none specifiers], [cb])
      else
        .ok ([], [.exportNamedDecl (some source) specifiers], [cb])
  | s => .ok ([], [s], [])

/-- The `Program.exit` while-loop over the whole body: statements are
processed from the last to the first, generated declarations accumulate
by `unshift` (so they end up in source order), retained statements keep
their relative order, and callback records are logged in invocation
order (last statement first). -/
def processBody (opts : IOpts) (file : String) : List Stmt → Except String (List Stmt × List Stmt × List TransformDep)
  | [] => .ok ([], [], [])
  | s :: rest =>
    match processBody opts file rest with
    | .error e => .error e
    | .ok (decls, retained, cbs) =>
      match processStmt opts file s with
      | .error e => .error e
      | .ok (d, r, c) => .ok (d ++ decls, r ++ retained, cbs ++ c)

/-- `Program.exit`: run the loop, then
`path.node.body = [...variableDeclarations, ...path.node.body]`. -/
def programExit (opts : IOpts) (file : String) (body : List Stmt) :
    Except String (List Stmt × List TransformDep) :=
  match processBody opts file body with
  | .error e => .error e
  | .ok (decls, retained, cbs) => .ok (decls ++ retained, cbs)

/-- `CallExpression.exit` for a call `import("<value>")` with a single
string-literal argument: returns the (possibly rewritten) argument value
and the callback record. -/
def callExpressionExit (opts : IOpts) (file : String) (value : String) :
    Except String (String × TransformDep) :=
  match optsMatch opts value with
  | .error e => .error e
  | .ok isMatch =>
    if isMatch then .ok (remotePath opts value, ⟨value, file, isMatch, false⟩)
    else .ok (value, ⟨value, file, isMatch, false⟩)

/-! ### Spec-side definitions and derived notions used by the theorems -/

/-- Wildcard-mode matching as the specification words it: never match the
tool's own package name `umi` or its companion `dumi`; an absolute path
matches iff it contains `node_modules` or the monorepo-local marker
`umi/packages/`; a relative path (leading `.`) never matches; a bare
specifier is resolved through `webpackAlias` and the marker test applied
to the resolved value, defaulting to match when unresolved. -/
def wildcardMatchSpec (path : String) (webpackAlias : IAlias) : Bool :=
  if path = "umi" ∨ path = "dumi" then false
  else if isAbsolute path then
    strContains path "node_modules" || strContains path "umi/packages/"
  else if strStartsWith path "." then false
  else
    match getAlias path webpackAlias with
    | some resolved => strContains resolved "node_modules" || strContains resolved "umi/packages/"
    | none => true

/-- The declarations `processStmt` generates for a statement (empty when
the statement errors or generates nothing). -/
def stmtDecls (opts : IOpts) (file : String) (s : Stmt) : List Stmt :=
  match processStmt opts file s with
  | .ok (d, _, _) => d
  | .error _ => []

/-- The retained/mutated statements `processStmt` keeps for a statement
(empty when the statement errors or is removed). -/
def stmtRetained (opts : IOpts) (file : String) (s : Stmt) : List Stmt :=
  match processStmt opts file s with
  | .ok (_, r, _) => r
  | .error _ => []

/-- Whether a statement is an import declaration that the pass removes
(i.e. whose source matches). -/
def isRemovedImport (opts : IOpts) (s : Stmt) : Bool :=
  match s with
  | .importDecl source _ =>
    match optsMatch opts source with
    | .ok true => true
    | _ => false
  | _ => false

/-- The number of matched (hence removed) import statements in a body. -/
def removedImportCount (opts : IOpts) (body : List Stmt) : Nat :=
  (body.filter (isRemovedImport opts)).length

/-- The total number of declarations the pass generates for a body. -/
def generatedDeclCount (opts : IOpts) (file : String) (body : List Stmt) : Nat :=
  ((body.map (stmtDecls opts file)).map List.length).sum

/-- One entry of the explicit-list scan matches a path. -/
def libEntryMatches (path : String) : TLib → Bool
  | .str s => s == path
  | .regexp test => test path
  | .invalid => false

/-- The module reference a statement submits to the match test: the
source of an import, of a blanket re-export, or of a named re-export;
`none` for every statement the pass leaves alone without testing. -/
def stmtReference : Stmt → Option String
  | .importDecl source _ => some source
  | .exportAllDecl (some source) => some source
  | .exportNamedDecl (some source) _ => some source
  | _ => none

/-! ### Helper lemmas -/

/-- In wildcard mode `isMatchLib` computes `wildcardMatchSpec`, ignoring
`libs` and `alias'`. -/
lemma isMatchLib_matchAll (path : String) (libs : Option (List TLib))
    (alias' webpackAlias : IAlias) :
    isMatchLib path libs (some true) alias' webpackAlias =
      .ok (wildcardMatchSpec path webpackAlias) := by
  unfold isMatchLib wildcardMatchSpec reNodeModulesTest reUmiLocalDevTest
  simp only [Option.getD_some, if_true]
  split_ifs <;> try rfl
  cases getAlias path webpackAlias <;> rfl

/-! ### Claim theorems -/

/-- Claim C10: in wildcard mode the match procedure never inspects the
`libs` entries or the `alias` keys — the outcome is independent of both,
and no configuration error can be raised. -/
theorem wildcard_ignores_libs_and_alias (path : String)
    (libs libs' : Option (List TLib)) (alias₁ alias₂ webpackAlias : IAlias) :
    isMatchLib path libs (some true) alias₁ webpackAlias =
      isMatchLib path libs' (some true) alias₂ webpackAlias ∧
    ∃ b : Bool, isMatchLib path libs (some true) alias₁ webpackAlias = .ok b := by
  rw [isMatchLib_matchAll, isMatchLib_matchAll]
  exact ⟨rfl, _, rfl⟩

/-- Claim C8 counterexample: an entry whose replacement value is a JS file
(`bar.js`) is *not* matched exactly against its key — `getAlias` still
matches by prefix, so the path `foox`, different from the key `foo`,
resolves through the entry `("foo", "bar.js")`. -/
theorem js_file_alias_exact_counterexample :
    isJSFile "bar.js" = true ∧ ("foox" : String) ≠ "foo" ∧
      getAlias "foox" [("foo", "bar.js")] = some "bar.js" :=
  ⟨rfl, by decide, rfl⟩

/-- Claim C8 (amended): `getAlias` tries entries in order and returns the
replacement value of the first entry whose key — taken as-is when the
replacement value has a source-file extension, with a trailing separator
appended otherwise — is a *prefix* of the path; `none` when no entry
matches. -/
theorem getAlias_first_matching_entry (path : String) (webpackAlias : IAlias) :
    getAlias path webpackAlias =
      (webpackAlias.find? fun e =>
        strStartsWith path (if isJSFile e.2 then e.1 else addLastSlash e.1)).map Prod.snd := by
  induction webpackAlias with
  | nil => rfl
  | cons kv rest ih =>
    obtain ⟨k, v⟩ := kv
    by_cases h : strStartsWith path (if isJSFile v then k else addLastSlash k)
    · simp [getAlias, List.find?, h]
    · simp [getAlias, List.find?, h, ih]

/-- Options with nothing configured: every reference is unmatched. -/
def optsEmpty : IOpts := ⟨none, none, "mf", none, none, none⟩

/-- Options whose explicit list matches exactly the string `pkg`. -/
def optsPkg : IOpts := ⟨some [TLib.str "pkg"], none, "mf", none, none, none⟩

/-- Options matching `pkg` with a configured member list for it. -/
def optsPkgMembers : IOpts :=
  ⟨some [TLib.str "pkg"], none, "mf", none, none, some [("pkg", ["a", "b"])]⟩

/-- Claim C4: identity on no-match — an import, blanket re-export, named
re-export, or dynamic-load call whose module reference fails the match
test is returned unchanged (same statement, same source, same
specifiers), with no generated declaration. -/
theorem no_match_identity (opts : IOpts) (file : String) :
    (∀ source specifiers, optsMatch opts source = .ok false →
      processStmt opts file (.importDecl source specifiers) =
        .ok ([], [.importDecl source specifiers], [⟨source, file, false, false⟩])) ∧
    (∀ source, optsMatch opts source = .ok false →
      processStmt opts file (.exportAllDecl (some source)) =
        .ok ([], [.exportAllDecl (some source)], [⟨source, file, false, true⟩])) ∧
    (∀ source specifiers, optsMatch opts source = .ok false →
      processStmt opts file (.exportNamedDecl (some source) specifiers) =
        .ok ([], [.exportNamedDecl (some source) specifiers], [⟨source, file, false, false⟩])) ∧
    (∀ value, optsMatch opts value = .ok false →
      callExpressionExit opts file value = .ok (value, ⟨value, file, false, false⟩)) := by
  refine ⟨?_, ?_, ?_, ?_⟩
  · intro source specifiers h
    simp [processStmt, h]
  · intro source h
    simp [processStmt, h]
  · intro source specifiers h
    simp [processStmt, h]
  · intro value h
    simp [callExpressionExit, h]

/-- Claim C4 witness: the identity property at concrete unmatched inputs. -/
theorem no_match_identity_witness :
    processStmt optsEmpty "f.js" (.importDecl "x" []) =
      .ok ([], [.importDecl "x" []], [⟨"x", "f.js", false, false⟩]) ∧
    processStmt optsEmpty "f.js" (.exportAllDecl (some "x")) =
      .ok ([], [.exportAllDecl (some "x")], [⟨"x", "f.js", false, true⟩]) ∧
    processStmt optsEmpty "f.js" (.exportNamedDecl (some "x") []) =
      .ok ([], [.exportNamedDecl (some "x") []], [⟨"x", "f.js", false, false⟩]) ∧
    callExpressionExit optsEmpty "f.js" "x" = .ok ("x", ⟨"x", "f.js", false, false⟩) :=
  ⟨(no_match_identity optsEmpty "f.js").1 "x" [] rfl,
   (no_match_identity optsEmpty "f.js").2.1 "x" rfl,
   (no_match_identity optsEmpty "f.js").2.2.1 "x" [] rfl,
   (no_match_identity optsEmpty "f.js").2.2.2 "x" rfl⟩

/-- Claim C3: a matched import with a namespace binding and non-empty
projected properties generates exactly two declarations — the namespace
binding first, the destructuring of the namespace second; a namespace
binding with empty properties generates exactly the namespace binding;
otherwise exactly the destructuring of the awaited load; in every matched
case the original import is removed (nothing is retained). -/
theorem matched_import_rewrite (opts : IOpts) (file source : String)
    (specifiers : List Specifier) (h : optsMatch opts source = .ok true) :
    processStmt opts file (.importDecl source specifiers) = .ok (
      (match (specifiersToProperties specifiers).namespaceIdentifier with
       | some ns =>
         if (specifiersToProperties specifiers).properties = [] then
           [Stmt.variableDeclaration (.identifier ns) (.awaitImport (remotePath opts source))]
         else
           [Stmt.variableDeclaration (.identifier ns) (.awaitImport (remotePath opts source)),
            Stmt.variableDeclaration
              (.objectPattern (specifiersToProperties specifiers).properties) (.ident ns)]
       | none =>
         [Stmt.variableDeclaration
            (.objectPattern (specifiersToProperties specifiers).properties)
            (.awaitImport (remotePath opts source))]),
      [], [⟨source, file, true, false⟩]) := by
  simp only [processStmt, h]
  cases hns : (specifiersToProperties specifiers).namespaceIdentifier with
  | none => simp [hns]
  | some ns =>
    by_cases hp : (specifiersToProperties specifiers).properties = []
    · simp [hns, hp]
    · simp [hns, hp, bne_iff_ne, List.length_eq_zero]

/-- Claim C3 witness: `import Default, * as ns from 'pkg'` matched becomes
the namespace declaration followed by the destructuring declaration. -/
theorem matched_import_rewrite_witness :
    processStmt optsPkg "f.js"
        (.importDecl "pkg" [.importDefaultSpecifier "Foo", .importNamespaceSpecifier "ns"]) =
      .ok ([.variableDeclaration (.identifier "ns") (.awaitImport "mf/pkg"),
            .variableDeclaration (.objectPattern [("default", "Foo")]) (.ident "ns")],
           [], [⟨"pkg", "f.js", true, false⟩]) :=
  matched_import_rewrite optsPkg "f.js" "pkg"
    [.importDefaultSpecifier "Foo", .importNamespaceSpecifier "ns"] rfl

/-- Claim C7: a matched `export * from` whose source has a configured
member list generates `const __all_exports = await import(remotePath)` and
is replaced in place by `export const { m1, m2, .. } = __all_exports` with
exactly that member list in order; an unmatched one, or a matched one
without a member list, is retained unchanged with no declaration. -/
theorem export_all_rewrite (opts : IOpts) (file : String) :
    (∀ source members, optsMatch opts source = .ok true →
      (opts.exportAllMembers.getD []).lookup source = some members →
      processStmt opts file (.exportAllDecl (some source)) = .ok (
        [.variableDeclaration (.identifier "__all_exports")
           (.awaitImport (remotePath opts source))],
        [.exportNamedVariableDeclaration (.objectPattern (members.map fun m => (m, m)))
           (.ident "__all_exports")],
        [⟨source, file, false, true⟩])) ∧
    (∀ source, optsMatch opts source = .ok false →
      processStmt opts file (.exportAllDecl (some source)) =
        .ok ([], [.exportAllDecl (some source)], [⟨source, file, false, true⟩])) ∧
    (∀ source, optsMatch opts source = .ok true →
      (opts.exportAllMembers.getD []).lookup source = none →
      processStmt opts file (.exportAllDecl (some source)) =
        .ok ([], [.exportAllDecl (some source)], [⟨source, file, false, true⟩])) := by
  refine ⟨?_, ?_, ?_⟩
  · intro source members h hmem
    simp [processStmt, h, hmem]
  · intro source h
    simp [processStmt, h]
  · intro source h hmem
    simp [processStmt, h, hmem]

/-- Claim C7 witness: concrete matched/unmatched blanket re-exports. -/
theorem export_all_rewrite_witness :
    processStmt optsPkgMembers "f.js" (.exportAllDecl (some "pkg")) =
      .ok ([.variableDeclaration (.identifier "__all_exports") (.awaitImport "mf/pkg")],
           [.exportNamedVariableDeclaration
              (.objectPattern [("a", "a"), ("b", "b")]) (.ident "__all_exports")],
           [⟨"pkg", "f.js", false, true⟩]) ∧
    processStmt optsEmpty "f.js" (.exportAllDecl (some "pkg")) =
      .ok ([], [.exportAllDecl (some "pkg")], [⟨"pkg", "f.js", false, true⟩]) ∧
    processStmt optsPkg "f.js" (.exportAllDecl (some "pkg")) =
      .ok ([], [.exportAllDecl (some "pkg")], [⟨"pkg", "f.js", false, true⟩]) :=
  ⟨(export_all_rewrite optsPkgMembers "f.js").1 "pkg" ["a", "b"] rfl rfl,
   (export_all_rewrite optsEmpty "f.js").2.1 "pkg" rfl,
   (export_all_rewrite optsPkg "f.js").2.2 "pkg" rfl rfl⟩

/-- Claim C6 counterexample: a blanket re-export of `pkg` *matches*
(`optsMatch` returns true), yet the record handed to `onTransformDeps`
carries `isMatch := false` — the callback does not receive the actual
outcome of the match test. -/
theorem export_all_callback_counterexample :
    optsMatch optsPkg "pkg" = .ok true ∧
    processStmt optsPkg "f.js" (.exportAllDecl (some "pkg")) =
      .ok ([], [.exportAllDecl (some "pkg")], [⟨"pkg", "f.js", false, true⟩]) :=
  ⟨rfl, rfl⟩

/-- Claim C6 (amended): each encountered reference produces exactly one
callback record carrying its source and containing file; the `isMatch`
field is the actual outcome of the match test for imports, named
re-exports, and dynamic-load calls, but for a blanket re-export it is
always `false` (with `isExportAllDeclaration := true`) regardless of the
actual outcome. -/
theorem callback_record_accuracy_amended (opts : IOpts) (file : String) :
    (∀ source specifiers (b : Bool), optsMatch opts source = .ok b →
      ∃ d r, processStmt opts file (.importDecl source specifiers) =
        .ok (d, r, [⟨source, file, b, false⟩])) ∧
    (∀ source (b : Bool), optsMatch opts source = .ok b →
      ∃ d r, processStmt opts file (.exportAllDecl (some source)) =
        .ok (d, r, [⟨source, file, false, true⟩])) ∧
    (∀ source specifiers (b : Bool), optsMatch opts source = .ok b →
      ∃ d r, processStmt opts file (.exportNamedDecl (some source) specifiers) =
        .ok (d, r, [⟨source, file, b, false⟩])) ∧
    (∀ value (b : Bool), optsMatch opts value = .ok b →
      ∃ v, callExpressionExit opts file value = .ok (v, ⟨value, file, b, false⟩)) := by
  refine ⟨?_, ?_, ?_, ?_⟩
  · intro source specifiers b h
    simp only [processStmt, h]
    cases b with
    | false => exact ⟨_, _, rfl⟩
    | true =>
      cases hns : (specifiersToProperties specifiers).namespaceIdentifier with
      | none => exact ⟨_, _, rfl⟩
      | some ns =>
        cases hb : (specifiersToProperties specifiers).properties.length != 0 <;>
          exact ⟨_, _, rfl⟩
  · intro source b h
    simp only [processStmt, h]
    cases b with
    | false => exact ⟨_, _, rfl⟩
    | true =>
      cases hl : (opts.exportAllMembers.getD []).lookup source <;> exact ⟨_, _, rfl⟩
  · intro source specifiers b h
    simp only [processStmt, h]
    cases b <;> exact ⟨_, _, rfl⟩
  · intro value b h
    simp only [callExpressionExit, h]
    cases b <;> exact ⟨_, rfl⟩

/-- Claim C6 amended witness: concrete records for each reference kind. -/
theorem callback_record_accuracy_amended_witness :
    (∃ d r, processStmt optsPkg "f.js" (.importDecl "pkg" []) =
      .ok (d, r, [⟨"pkg", "f.js", true, false⟩])) ∧
    (∃ d r, processStmt optsPkg "f.js" (.exportAllDecl (some "pkg")) =
      .ok (d, r, [⟨"pkg", "f.js", false, true⟩])) ∧
    (∃ d r, processStmt optsPkg "f.js" (.exportNamedDecl (some "pkg") []) =
      .ok (d, r, [⟨"pkg", "f.js", true, false⟩])) ∧
    (∃ v, callExpressionExit optsPkg "f.js" "pkg" =
      .ok (v, ⟨"pkg", "f.js", true, false⟩)) :=
  ⟨(callback_record_accuracy_amended optsPkg "f.js").1 "pkg" [] true rfl,
   (callback_record_accuracy_amended optsPkg "f.js").2.1 "pkg" true rfl,
   (callback_record_accuracy_amended optsPkg "f.js").2.2.1 "pkg" [] true rfl,
   (callback_record_accuracy_amended optsPkg "f.js").2.2.2 "pkg" true rfl⟩

/-! ### Helper lemmas for the program-level theorems -/

/-- A successful `processBody` run yields exactly the per-statement
declarations and retained statements, concatenated in source order. -/
lemma processBody_ok_parts (opts : IOpts) (file : String) (body : List Stmt)
    (decls retained : List Stmt) (cbs : List TransformDep)
    (h : processBody opts file body = .ok (decls, retained, cbs)) :
    decls = (body.map (stmtDecls opts file)).flatten ∧
    retained = (body.map (stmtRetained opts file)).flatten := by
  induction body generalizing decls retained cbs with
  | nil =>
    simp only [processBody, Except.ok.injEq, Prod.mk.injEq] at h
    obtain ⟨h1, h2, h3⟩ := h
    simp [← h1, ← h2]
  | cons s rest ih =>
    simp only [processBody] at h
    cases hrest : processBody opts file rest with
    | error e => rw [hrest] at h; simp at h
    | ok t =>
      obtain ⟨d0, r0, c0⟩ := t
      rw [hrest] at h
      cases hs : processStmt opts file s with
      | error e => rw [hs] at h; simp at h
      | ok u =>
        obtain ⟨d1, r1, c1⟩ := u
        rw [hs] at h
        simp only [Except.ok.injEq, Prod.mk.injEq] at h
        obtain ⟨hd, hr, hc⟩ := h
        obtain ⟨ihd, ihr⟩ := ih d0 r0 c0 hrest
        constructor
        · rw [← hd, ihd]; simp [stmtDecls, hs]
        · rw [← hr, ihr]; simp [stmtRetained, hs]

/-- A successful `processStmt` retains exactly one statement, except for a
matched import, which retains none. -/
lemma processStmt_retained_count (opts : IOpts) (file : String) (s : Stmt)
    (d r : List Stmt) (c : List TransformDep)
    (h : processStmt opts file s = .ok (d, r, c)) :
    r.length + (if isRemovedImport opts s then 1 else 0) = 1 := by
  cases s with
  | importDecl source specifiers =>
    cases hm : optsMatch opts source with
    | error e => simp [processStmt, hm] at h
    | ok b =>
      cases b with
      | false =>
        simp [processStmt, hm] at h
        obtain ⟨-, hr, -⟩ := h
        simp [← hr, isRemovedImport, hm]
      | true =>
        simp only [processStmt, hm] at h
        have hr : r = [] := by
          cases hns : (specifiersToProperties specifiers).namespaceIdentifier with
          | none =>
            simp [hns] at h
            exact h.2.1
          | some ns =>
            rw [hns] at h
            cases hb : (specifiersToProperties specifiers).properties.length != 0 <;>
              rw [hb] at h <;> simp at h
            · exact h.2.1
            · exact h.2.1
        simp [hr, isRemovedImport, hm]
  | exportAllDecl src? =>
    cases src? with
    | none =>
      simp [processStmt] at h
      obtain ⟨-, hr, -⟩ := h
      simp [← hr, isRemovedImport]
    | some source =>
      cases hm : optsMatch opts source with
      | error e => simp [processStmt, hm] at h
      | ok b =>
        cases b with
        | false =>
          simp [processStmt, hm] at h
          obtain ⟨-, hr, -⟩ := h
          simp [← hr, isRemovedImport]
        | true =>
          simp only [processStmt, hm] at h
          cases hl : (opts.exportAllMembers.getD []).lookup source <;> rw [hl] at h <;>
            simp at h
          · obtain ⟨-, hr, -⟩ := h
            simp [← hr, isRemovedImport]
          · obtain ⟨-, hr, -⟩ := h
            simp [← hr, isRemovedImport]
  | exportNamedDecl src? specifiers =>
    cases src? with
    | none =>
      simp [processStmt] at h
      obtain ⟨-, hr, -⟩ := h
      simp [← hr, isRemovedImport]
    | some source =>
      cases hm : optsMatch opts source with
      | error e => simp [processStmt, hm] at h
      | ok b =>
        cases b <;> simp [processStmt, hm] at h
        · obtain ⟨-, hr, -⟩ := h
          simp [← hr, isRemovedImport]
        · obtain ⟨-, hr, -⟩ := h
          simp [← hr, isRemovedImport]
  | variableDeclaration id init =>
    simp [processStmt] at h
    obtain ⟨-, hr, -⟩ := h
    simp [← hr, isRemovedImport]
  | exportNamedVariableDeclaration id init =>
    simp [processStmt] at h
    obtain ⟨-, hr, -⟩ := h
    simp [← hr, isRemovedImport]
  | other tag =>
    simp [processStmt] at h
    obtain ⟨-, hr, -⟩ := h
    simp [← hr, isRemovedImport]

/-- Statement accounting for a successful `processBody` run. -/
lemma processBody_counts (opts : IOpts) (file : String) (body : List Stmt)
    (decls retained : List Stmt) (cbs : List TransformDep)
    (h : processBody opts file body = .ok (decls, retained, cbs)) :
    retained.length + removedImportCount opts body = body.length ∧
    decls.length = generatedDeclCount opts file body := by
  induction body generalizing decls retained cbs with
  | nil =>
    simp only [processBody, Except.ok.injEq, Prod.mk.injEq] at h
    obtain ⟨h1, h2, h3⟩ := h
    simp [← h1, ← h2, removedImportCount, generatedDeclCount]
  | cons s rest ih =>
    simp only [processBody] at h
    cases hrest : processBody opts file rest with
    | error e => rw [hrest] at h; simp at h
    | ok t =>
      obtain ⟨d0, r0, c0⟩ := t
      rw [hrest] at h
      cases hs : processStmt opts file s with
      | error e => rw [hs] at h; simp at h
      | ok u =>
        obtain ⟨d1, r1, c1⟩ := u
        rw [hs] at h
        simp only [Except.ok.injEq, Prod.mk.injEq] at h
        obtain ⟨hd, hr, hc⟩ := h
        obtain ⟨ih1, ih2⟩ := ih d0 r0 c0 hrest
        have hcount := processStmt_retained_count opts file s d1 r1 c1 hs
        constructor
        · rw [← hr]
          simp only [removedImportCount, List.filter_cons] at ih1 ⊢
          cases hri : isRemovedImport opts s
          · simp only [hri, Bool.false_eq_true, if_false, Nat.add_zero] at hcount
            simp only [hri, Bool.false_eq_true, if_false, List.length_append, List.length_cons]
            omega
          · simp only [hri, if_true] at hcount
            simp only [hri, if_true, List.length_append, List.length_cons]
            omega
        · rw [← hd]
          simp only [generatedDeclCount, List.map_cons, List.sum_cons, List.length_append,
            stmtDecls, hs] at *
          omega

/-- Every `someLib` failure carries the fixed configuration-error text. -/
lemma someLib_error_msg (path : String) (libs : List TLib) (e : String)
    (h : someLib path libs = .error e) : e = "Unsupported lib format." := by
  induction libs with
  | nil => simp [someLib] at h
  | cons l rest ih =>
    cases l with
    | str s =>
      by_cases hs : s = path
      · simp [someLib, hs] at h
      · simp only [someLib, hs, if_false] at h
        exact ih h
    | regexp test =>
      by_cases ht : test path = true
      · simp [someLib, ht] at h
      · simp only [someLib, ht, if_false] at h
        exact ih h
    | invalid =>
      simp only [someLib, Except.error.injEq] at h
      exact h.symm

/-- Every `isMatchLib` failure carries the configuration-error text. -/
lemma isMatchLib_error_msg (path : String) (libs : Option (List TLib))
    (matchAll : Option Bool) (alias' webpackAlias : IAlias) (e : String)
    (h : isMatchLib path libs matchAll alias' webpackAlias = .error e) :
    e = "Unsupported lib format." := by
  unfold isMatchLib at h
  cases hma : matchAll.getD false
  · rw [hma] at h
    simp only [Bool.false_eq_true, if_false] at h
    exact someLib_error_msg _ _ _ h
  · rw [hma] at h
    simp only [if_true] at h
    split at h <;> try simp at h
    split at h <;> try simp at h
    split at h <;> try simp at h
    split at h <;> simp at h

/-- Every `processStmt` failure carries the configuration-error text. -/
lemma processStmt_error_msg (opts : IOpts) (file : String) (s : Stmt) (e : String)
    (h : processStmt opts file s = .error e) : e = "Unsupported lib format." := by
  cases s with
  | importDecl source specifiers =>
    cases hm : optsMatch opts source with
    | error e' =>
      have he := isMatchLib_error_msg _ _ _ _ _ _ hm
      simp only [processStmt, hm] at h
      simp only [Except.error.injEq] at h
      exact h ▸ he
    | ok b =>
      simp only [processStmt, hm] at h
      cases b with
      | false => simp at h
      | true =>
        cases hns : (specifiersToProperties specifiers).namespaceIdentifier <;>
          rw [hns] at h
        · simp at h
        · cases hb : (specifiersToProperties specifiers).properties.length != 0 <;>
            rw [hb] at h <;> simp at h
  | exportAllDecl src? =>
    cases src? with
    | none => simp [processStmt] at h
    | some source =>
      cases hm : optsMatch opts source with
      | error e' =>
        have he := isMatchLib_error_msg _ _ _ _ _ _ hm
        simp only [processStmt, hm, Except.error.injEq] at h
        exact h ▸ he
      | ok b =>
        simp only [processStmt, hm] at h
        cases b with
        | false => simp at h
        | true =>
          cases hl : (opts.exportAllMembers.getD []).lookup source <;> rw [hl] at h <;>
            simp at h
  | exportNamedDecl src? specifiers =>
    cases src? with
    | none => simp [processStmt] at h
    | some source =>
      cases hm : optsMatch opts source with
      | error e' =>
        have he := isMatchLib_error_msg _ _ _ _ _ _ hm
        simp only [processStmt, hm, Except.error.injEq] at h
        exact h ▸ he
      | ok b => cases b <;> simp [processStmt, hm] at h
  | variableDeclaration id init => simp [processStmt] at h
  | exportNamedVariableDeclaration id init => simp [processStmt] at h
  | other tag => simp [processStmt] at h

/-- Every `processBody` failure carries the configuration-error text. -/
lemma processBody_error_msg (opts : IOpts) (file : String) (body : List Stmt) (e : String)
    (h : processBody opts file body = .error e) : e = "Unsupported lib format." := by
  induction body generalizing e with
  | nil => simp [processBody] at h
  | cons s rest ih =>
    simp only [processBody] at h
    cases hrest : processBody opts file rest with
    | error e' =>
      rw [hrest] at h
      simp only [Except.error.injEq] at h
      rw [← h]
      exact ih e' hrest
    | ok t =>
      obtain ⟨d0, r0, c0⟩ := t
      rw [hrest] at h
      cases hs : processStmt opts file s with
      | error e' =>
        rw [hs] at h
        simp only [Except.error.injEq] at h
        rw [← h]
        exact processStmt_error_msg opts file s e' hs
      | ok u =>
        obtain ⟨d1, r1, c1⟩ := u
        rw [hs] at h
        simp at h

/-- If some statement of the body fails, the whole `processBody` fails. -/
lemma processBody_error_of_mem (opts : IOpts) (file : String) (body : List Stmt)
    (s : Stmt) (e : String) (hmem : s ∈ body)
    (hs : processStmt opts file s = .error e) :
    ∃ e', processBody opts file body = .error e' := by
  induction body with
  | nil => cases hmem
  | cons s' rest ih =>
    cases hrest : processBody opts file rest with
    | error e'' => exact ⟨e'', by simp [processBody, hrest]⟩
    | ok t =>
      obtain ⟨d0, r0, c0⟩ := t
      rcases List.mem_cons.mp hmem with heq | hmem'
      · refine ⟨e, ?_⟩
        rw [heq] at hs
        simp [processBody, hrest, hs]
      · obtain ⟨e'', he⟩ := ih hmem'
        rw [he] at hrest
        simp at hrest

/-- The explicit-list scan reaches an invalid entry — and throws — when no
earlier entry matched the path. -/
lemma someLib_reaches_invalid (source : String) (pre post : List TLib)
    (hpre : ∀ l ∈ pre, libEntryMatches source l = false) :
    someLib source (pre ++ TLib.invalid :: post) = .error "Unsupported lib format." := by
  induction pre with
  | nil => rfl
  | cons l pres ih =>
    have hl := hpre l (List.mem_cons_self l pres)
    have ih' := ih fun l' hl' => hpre l' (List.mem_cons_of_mem l hl')
    cases l with
    | str s =>
      simp only [libEntryMatches, beq_eq_false_iff_ne, ne_eq] at hl
      simpa [someLib, hl] using ih'
    | regexp test =>
      simp only [libEntryMatches] at hl
      simpa [someLib, hl] using ih'
    | invalid => rfl

/-! ### Remaining claim theorems -/

/-- Claim C2: the output of `Program.exit` is exactly the generated
declarations — grouped by source statement, in the statements' original
relative order — followed by the retained or mutated original statements
in their original relative order, even though the discovering scan runs
backward. -/
theorem output_ordering_invariant (opts : IOpts) (file : String) (body out : List Stmt)
    (cbs : List TransformDep) (h : programExit opts file body = .ok (out, cbs)) :
    out = (body.map (stmtDecls opts file)).flatten ++ (body.map (stmtRetained opts file)).flatten := by
  unfold programExit at h
  cases hb : processBody opts file body with
  | error e => rw [hb] at h; simp at h
  | ok t =>
    obtain ⟨decls, retained, cbs'⟩ := t
    rw [hb] at h
    simp only [Except.ok.injEq, Prod.mk.injEq] at h
    obtain ⟨ho, hc⟩ := h
    obtain ⟨hd, hr⟩ := processBody_ok_parts opts file body decls retained cbs' hb
    rw [← ho, hd, hr]

/-- Options matching the strings `pkg` and `pkg2`. -/
def optsTwo : IOpts := ⟨some [TLib.str "pkg", TLib.str "pkg2"], none, "mf", none, none, none⟩

/-- A three-statement body: matched import, untouched statement, matched import. -/
def bodyTwo : List Stmt :=
  [.importDecl "pkg" [.importSpecifier "a" "a"], .other 0,
   .importDecl "pkg2" [.importSpecifier "b" "b"]]

/-- Claim C2 witness: both generated declarations come first, in source
order, followed by the retained statement. -/
theorem output_ordering_invariant_witness :
    ([.variableDeclaration (.objectPattern [("a", "a")]) (.awaitImport "mf/pkg"),
      .variableDeclaration (.objectPattern [("b", "b")]) (.awaitImport "mf/pkg2"),
      .other 0] : List Stmt) =
      (bodyTwo.map (stmtDecls optsTwo "f.js")).flatten ++
        (bodyTwo.map (stmtRetained optsTwo "f.js")).flatten :=
  output_ordering_invariant optsTwo "f.js" bodyTwo
    [.variableDeclaration (.objectPattern [("a", "a")]) (.awaitImport "mf/pkg"),
     .variableDeclaration (.objectPattern [("b", "b")]) (.awaitImport "mf/pkg2"),
     .other 0]
    [⟨"pkg2", "f.js", true, false⟩, ⟨"pkg", "f.js", true, false⟩] rfl

/-- Options whose `libs` holds a matching string *before* an invalid entry. -/
def optsInvalidMatched : IOpts :=
  ⟨some [TLib.str "pkg", TLib.invalid], none, "mf", none, none, none⟩

/-- Claim C5 counterexample: a pass whose `libs` contains an invalid entry
does *not* fail — the scan short-circuits on the earlier matching string
`pkg`, so the pass completes with a rewrite. -/
theorem invalid_lib_entry_skipped_counterexample :
    optsInvalidMatched.libs = some [TLib.str "pkg", TLib.invalid] ∧
    programExit optsInvalidMatched "f.js" [.importDecl "pkg" []] =
      .ok ([.variableDeclaration (.objectPattern []) (.awaitImport "mf/pkg")],
           [⟨"pkg", "f.js", true, false⟩]) :=
  ⟨rfl, rfl⟩

/-- Claim C5 (amended): in explicit-list mode, whenever the pass tests a
reference — the source of an import, of a blanket re-export, or of a
named re-export in the body — that no `libs` entry before the invalid one
matches, the invalid entry is reached and the whole pass fails
immediately with `Unsupported lib format.` — no rewritten program is
returned. -/
theorem invalid_lib_entry_error_when_reached (opts : IOpts) (file : String)
    (body : List Stmt) (source : String) (s : Stmt) (pre post : List TLib)
    (hmode : opts.matchAll.getD false = false)
    (hlibs : opts.libs.getD [] = pre ++ TLib.invalid :: post)
    (hpre : ∀ l ∈ pre, libEntryMatches source l = false)
    (hmem : s ∈ body)
    (href : stmtReference s = some source) :
    programExit opts file body = .error "Unsupported lib format." := by
  have hm : optsMatch opts source = .error "Unsupported lib format." := by
    unfold optsMatch isMatchLib
    rw [hmode]
    simp only [Bool.false_eq_true, if_false, hlibs, List.append_assoc, List.cons_append]
    exact someLib_reaches_invalid source pre
      (post ++ ((opts.alias'.getD []).map Prod.fst).map TLib.str) hpre
  have hps : processStmt opts file s = .error "Unsupported lib format." := by
    cases s with
    | importDecl src specs =>
      simp only [stmtReference, Option.some.injEq] at href
      subst href
      simp [processStmt, hm]
    | exportAllDecl src? =>
      cases src? with
      | none => simp [stmtReference] at href
      | some src =>
        simp only [stmtReference, Option.some.injEq] at href
        subst href
        simp [processStmt, hm]
    | exportNamedDecl src? specs =>
      cases src? with
      | none => simp [stmtReference] at href
      | some src =>
        simp only [stmtReference, Option.some.injEq] at href
        subst href
        simp [processStmt, hm]
    | variableDeclaration id init => simp [stmtReference] at href
    | exportNamedVariableDeclaration id init => simp [stmtReference] at href
    | other tag => simp [stmtReference] at href
  obtain ⟨e', he⟩ := processBody_error_of_mem opts file body _ _ hmem hps
  have hmsg := processBody_error_msg opts file body e' he
  unfold programExit
  rw [he, hmsg]

/-- Options whose `libs` holds a non-matching string before an invalid entry. -/
def optsInvalidReached : IOpts :=
  ⟨some [TLib.str "aaa", TLib.invalid], none, "mf", none, none, none⟩

/-- Claim C5 amended witness: a blanket re-export of `pkg` reaches the
invalid entry and the pass fails with the configuration error. -/
theorem invalid_lib_entry_error_when_reached_witness :
    programExit optsInvalidReached "f.js" [.exportAllDecl (some "pkg")] =
      .error "Unsupported lib format." :=
  invalid_lib_entry_error_when_reached optsInvalidReached "f.js"
    [.exportAllDecl (some "pkg")] "pkg" (.exportAllDecl (some "pkg"))
    [TLib.str "aaa"] [] rfl rfl
    (by
      intro l hl
      have hls := List.mem_singleton.mp hl
      rw [hls]
      rfl)
    (List.mem_singleton.mpr rfl)
    rfl

/-- Claim C9 counterexample: one matched import (`original count` 1,
`removed count` 1) produces an output of one generated declaration, so
retained-plus-generated (1) differs from original-minus-removed (0). -/
theorem statement_count_counterexample :
    programExit optsPkg "f.js" [.importDecl "pkg" [.importSpecifier "a" "a"]] =
      .ok ([.variableDeclaration (.objectPattern [("a", "a")]) (.awaitImport "mf/pkg")],
           [⟨"pkg", "f.js", true, false⟩]) ∧
    removedImportCount optsPkg [.importDecl "pkg" [.importSpecifier "a" "a"]] = 1 ∧
    ([Stmt.variableDeclaration (.objectPattern [("a", "a")]) (.awaitImport "mf/pkg")] : List Stmt).length ≠
      ([Stmt.importDecl "pkg" [.importSpecifier "a" "a"]] : List Stmt).length -
        removedImportCount optsPkg [.importDecl "pkg" [.importSpecifier "a" "a"]] :=
  ⟨rfl, rfl, by decide⟩

/-- Claim C9 (amended): for every completed pass, the output length plus
the number of removed (matched) imports equals the original statement
count plus the number of generated declarations — equivalently, retained
statements number original-minus-removed, and exports are mutated or
replaced in place, never removed or duplicated. -/
theorem statement_count_amended (opts : IOpts) (file : String) (body out : List Stmt)
    (cbs : List TransformDep) (h : programExit opts file body = .ok (out, cbs)) :
    out.length + removedImportCount opts body =
      body.length + generatedDeclCount opts file body := by
  unfold programExit at h
  cases hb : processBody opts file body with
  | error e => rw [hb] at h; simp at h
  | ok t =>
    obtain ⟨decls, retained, cbs'⟩ := t
    rw [hb] at h
    simp only [Except.ok.injEq, Prod.mk.injEq] at h
    obtain ⟨ho, hc⟩ := h
    obtain ⟨h1, h2⟩ := processBody_counts opts file body decls retained cbs' hb
    rw [← ho]
    simp only [List.length_append]
    omega

/-- Claim C9 amended witness: the accounting at a concrete matched import. -/
theorem statement_count_amended_witness :
    ([Stmt.variableDeclaration (.objectPattern [("a", "a")]) (.awaitImport "mf/pkg")] : List Stmt).length +
        removedImportCount optsPkg [.importDecl "pkg" [.importSpecifier "a" "a"]] =
      ([Stmt.importDecl "pkg" [.importSpecifier "a" "a"]] : List Stmt).length +
        generatedDeclCount optsPkg "f.js" [.importDecl "pkg" [.importSpecifier "a" "a"]] :=
  statement_count_amended optsPkg "f.js" [.importDecl "pkg" [.importSpecifier "a" "a"]]
    [.variableDeclaration (.objectPattern [("a", "a")]) (.awaitImport "mf/pkg")]
    [⟨"pkg", "f.js", true, false⟩] rfl

end Umi
